import Mathlib

/-
Verification development for the SFX extraction batch runner
(tools/extract_sfx.py): a shallow embedding of its data model and
operations, together with theorems settling the specified properties.

Samples are modelled as integers in the 8-bit signed domain [-128, 127];
a stereo frame is a pair of samples.  The emulated machine is modelled
abstractly as a state type with the four primitives the runner consumes
(tick, memory write, memory read, audio-frame sampling).
-/

namespace ExtractSfx

/-- One interleaved stereo sample frame (left, right), int8 domain. -/
abbrev Frame := Int × Int

def SAMPLE_RATE : Nat := 44100

-- Memory addresses from the poketcg disassembly.
def ADDR_CUR_SFX_ID : Nat := 0xDD82
def ADDR_SFX_PRIORITY : Nat := 0xDD83
def ADDR_MUSIC_PAUSE : Nat := 0xDDF2

-- Game Boy sound hardware registers.
def ADDR_NR10 : Nat := 0xFF10
def ADDR_NR11 : Nat := 0xFF11
def ADDR_NR12 : Nat := 0xFF12
def ADDR_NR14 : Nat := 0xFF14
def ADDR_NR21 : Nat := 0xFF16
def ADDR_NR22 : Nat := 0xFF17
def ADDR_NR24 : Nat := 0xFF19
def ADDR_NR30 : Nat := 0xFF1A
def ADDR_NR42 : Nat := 0xFF21
def ADDR_NR44 : Nat := 0xFF23
def ADDR_NR50 : Nat := 0xFF24
def ADDR_NR51 : Nat := 0xFF25

/-- The fixed SFX catalog (id, name, estimated frames), from SFX_LIST. -/
def SFX_LIST : List (Nat × String × Nat) :=
  [(0x01, "cursor", 15),
   (0x02, "confirm", 20),
   (0x03, "cancel", 20),
   (0x04, "denied", 30),
   (0x05, "unused_05", 30),
   (0x06, "unused_06", 30),
   (0x07, "card_shuffle", 60),
   (0x08, "place_prize", 45),
   (0x09, "unused_09", 30),
   (0x0A, "unused_0a", 30),
   (0x0B, "coin_toss", 45),
   (0x0C, "warp", 60),
   (0x0D, "unused_0d", 30),
   (0x0E, "unused_0e", 30),
   (0x0F, "pokemon_dome_doors", 90),
   (0x10, "legendary_cards", 120),
   (0x11, "glow", 60),
   (0x12, "paralysis", 45),
   (0x13, "sleep", 60),
   (0x14, "confusion", 60),
   (0x15, "poison", 45),
   (0x16, "single_hit", 30),
   (0x17, "big_hit", 45),
   (0x18, "thunder_shock", 45),
   (0x19, "lightning", 60),
   (0x1A, "border_spark", 45),
   (0x1B, "big_lightning", 90),
   (0x1C, "small_flame", 45),
   (0x1D, "big_flame", 60),
   (0x1E, "fire_spin", 90),
   (0x1F, "dive_bomb", 60),
   (0x20, "water_jets", 60),
   (0x21, "water_gun", 45),
   (0x22, "whirlpool", 90),
   (0x23, "hydro_pump", 90),
   (0x24, "blizzard", 90),
   (0x25, "psychic", 60),
   (0x26, "leer", 45),
   (0x27, "beam", 60),
   (0x28, "hyper_beam", 120),
   (0x29, "rock_throw", 45),
   (0x2A, "stone_barrage", 60),
   (0x2B, "punch", 30),
   (0x2C, "stretch_kick", 45),
   (0x2D, "slash", 30),
   (0x2E, "sonicboom", 60),
   (0x2F, "fury_swipes", 60),
   (0x30, "drill", 90),
   (0x31, "pot_smash", 45),
   (0x32, "bonemerang", 60),
   (0x33, "seismic_toss", 90),
   (0x34, "needles", 45),
   (0x35, "white_gas", 60),
   (0x36, "powder", 45),
   (0x37, "goo", 60),
   (0x38, "bubbles", 60),
   (0x39, "string_shot", 60),
   (0x3A, "boyfriends", 60),
   (0x3B, "lure", 45),
   (0x3C, "toxic", 60),
   (0x3D, "confuse_ray", 60),
   (0x3E, "sing", 90),
   (0x3F, "supersonic", 60),
   (0x40, "petal_dance", 90),
   (0x41, "protect", 60),
   (0x42, "barrier", 60),
   (0x43, "speed", 45),
   (0x44, "whirlwind", 60),
   (0x45, "cry", 45),
   (0x46, "question_mark", 30),
   (0x47, "selfdestruct", 90),
   (0x48, "big_selfdestruct", 120),
   (0x49, "heal", 60),
   (0x4A, "drain", 60),
   (0x4B, "dark_gas", 60),
   (0x4C, "healing_wind", 90),
   (0x4D, "bench_whirlwind", 60),
   (0x4E, "expand", 60),
   (0x4F, "cat_punch", 45),
   (0x50, "thunder_wave", 60),
   (0x51, "firegiver", 120),
   (0x52, "thunderpunch", 60),
   (0x53, "fire_punch", 60),
   (0x54, "coin_toss_heads", 30),
   (0x55, "coin_toss_tails", 30),
   (0x56, "save_game", 60),
   (0x57, "player_walk_map", 30),
   (0x58, "intro_orb", 90),
   (0x59, "intro_orb_swoop", 60),
   (0x5A, "intro_orb_title", 90),
   (0x5B, "intro_orb_scatter", 60),
   (0x5C, "firegiver_start", 60),
   (0x5D, "receive_card_pop", 120),
   (0x5E, "pokemon_evolution", 120),
   (0x5F, "unused_5f", 30)]

/-- Absolute value as numpy computes it on the int8 dtype: two's-complement
wraparound leaves -128 fixed, every other in-domain value maps to its
mathematical absolute value. -/
def i8abs (s : Int) : Int := if s = -128 then -128 else |s|

/-- Per-frame peak: np.abs(samples).max(axis=1), the channel-wise maximum of
the (int8) absolute values. -/
def framePeak (f : Frame) : Int := max (i8abs f.1) (i8abs f.2)

/-- Indices of the frames whose peak exceeds the threshold, ascending:
np.where applied to the peak array compared against the threshold. -/
def loudIdx (threshold : Int) (samples : List Frame) : List Nat :=
  (((samples.map framePeak).enum.filter (fun p => p.2 > threshold)).map (fun p => p.1))

/-- Python-style slice samples[start:stop] (start, stop already clamped). -/
def slice (samples : List Frame) (start stop : Nat) : List Frame :=
  (samples.drop start).take (stop - start)

/-- trim_silence from the source: find first/last loud frame, keep 100
frames of lead-in and SAMPLE_RATE/4 frames of tail (clamped); if everything
is below threshold, or the kept slice is shorter than min_samples, return
the first min_samples frames instead. -/
def trim_silence (samples : List Frame) (threshold : Int) (min_samples : Nat) :
    List Frame :=
  let non_silent := loudIdx threshold samples
  match non_silent.head?, non_silent.getLast? with
  | some first, some last =>
    let start := first - 100
    let stop := min samples.length (last + SAMPLE_RATE / 4)
    let result := slice samples start stop
    if result.length < min_samples then samples.take min_samples else result
  | _, _ => samples.take min_samples

/-- The emulated machine as the runner consumes it: an abstract state with
one-tick advance, memory write/read by address, and per-tick audio-frame
sampling (pyboy.tick, pyboy.memory, pyboy.sound.ndarray). -/
structure Machine (σ : Type) where
  tick : σ → σ
  write : σ → Nat → Nat → σ
  read : σ → Nat → Nat
  sample : σ → List Frame

variable {σ : Type}

/-- Advance the machine n ticks. -/
def tickN (M : Machine σ) : Nat → σ → σ
  | 0, s => s
  | n + 1, s => tickN M n (M.tick s)

/-- The 15-iteration tail-capture loop run after early-exit detection:
tick, sample, append the chunk if non-empty. -/
def tailCapture (M : Machine σ) : Nat → σ → List (List Frame) × σ
  | 0, s => ([], s)
  | n + 1, s =>
    let s1 := M.tick s
    let chunk := M.sample s1
    let rest := tailCapture M n s1
    ((if chunk.length > 0 then [chunk] else []) ++ rest.1, rest.2)

/-- The per-effect collection loop body (fuel counts remaining iterations,
frame is the current 0-based frame index): tick, sample, append non-empty
chunks, and from frame index 11 on, if wCurSfxID reads 0x80, capture a
15-tick tail and stop. -/
def collectAux (M : Machine σ) : Nat → Nat → σ → List (List Frame) × σ
  | 0, _, s => ([], s)
  | fuel + 1, frame, s =>
    let s1 := M.tick s
    let chunk := M.sample s1
    let acc := if chunk.length > 0 then [chunk] else []
    if frame > 10 ∧ M.read s1 ADDR_CUR_SFX_ID = 0x80 then
      let tail := tailCapture M 15 s1
      (acc ++ tail.1, tail.2)
    else
      let rest := collectAux M fuel (frame + 1) s1
      (acc ++ rest.1, rest.2)

/-- Audio collection for one effect: up to est_frames + 30 iterations of the
loop, starting at frame index 0. -/
def collect (M : Machine σ) (est_frames : Nat) (s : σ) : List (List Frame) × σ :=
  collectAux M (est_frames + 30) 0 s

/-- The non-empty audio chunks sampled during the first n ticks from state s
(the chunk sampled right after the i-th tick, kept when non-empty). -/
def samplesUpTo (M : Machine σ) (s : σ) (n : Nat) : List (List Frame) :=
  (List.range n).filterMap (fun i =>
    let c := M.sample (tickN M (i + 1) s)
    if c.length > 0 then some c else none)

/-- Specification-level description of the collection phase: search for the
first frame index past 10 at which wCurSfxID has reverted to 0x80; on a hit
at index f, the loop has ticked f+1 times and then tail-captures 15 more,
otherwise it runs all fuel iterations. -/
def collectSpec (M : Machine σ) (fuel : Nat) (s : σ) : List (List Frame) × σ :=
  match (List.range fuel).find? (fun f =>
      decide (10 < f) && decide (M.read (tickN M (f + 1) s) ADDR_CUR_SFX_ID = 0x80)) with
  | some f => (samplesUpTo M s (f + 16), tickN M (f + 16) s)
  | none => (samplesUpTo M s fuel, tickN M fuel s)

/-- The fixed write sequence of reset_sound_channels, in program order:
(address, value) pairs. -/
def resetSoundWrites : List (Nat × Nat) :=
  [(ADDR_NR12, 0x00),
   (ADDR_NR22, 0x00),
   (ADDR_NR42, 0x00),
   (ADDR_NR30, 0x00),
   (ADDR_NR14, 0x80),
   (ADDR_NR24, 0x80),
   (ADDR_NR44, 0x80),
   (ADDR_NR10, 0x00),
   (ADDR_NR11, 0x00),
   (ADDR_NR21, 0x00),
   (ADDR_NR50, 0x77),
   (ADDR_NR51, 0xFF)]

/-- Perform a list of memory writes in order on a machine state. -/
def applyWrites (M : Machine σ) (s : σ) (ws : List (Nat × Nat)) : σ :=
  ws.foldl (fun s p => M.write s p.1 p.2) s

/-- reset_sound_channels acting on an abstract machine. -/
def resetSoundM (M : Machine σ) (s : σ) : σ :=
  applyWrites M s resetSoundWrites

/-- A plain byte-addressed store: the register-level view of memory. -/
def writeStore (m : Nat → Nat) (a v : Nat) : Nat → Nat :=
  fun x => if x = a then v else m x

/-- A machine whose state is just a memory store; write updates it, a tick
does nothing, audio is empty. -/
def storeMachine : Machine (Nat → Nat) where
  tick := fun m => m
  write := writeStore
  read := fun m a => m a
  sample := fun _ => []

/-- reset_sound_channels from the source, viewed as its effect on the
memory store. -/
def reset_sound_channels (m : Nat → Nat) : Nat → Nat :=
  resetSoundM storeMachine m

/-- Per-effect outcome, as the runner records it. -/
inductive Outcome
  | skipped
  | noAudio
  | convertFailed
  | ok (durationMs : Nat)
deriving DecidableEq, Repr

def Outcome.isOk : Outcome → Bool
  | .ok _ => true
  | _ => false

/-- File-system or encoder-facing steps the runner takes for an entry. -/
inductive FileAction
  | wavWrite (name : String)
  | encode (name : String)
deriving DecidableEq, Repr

/-- The name test of the skip-unused check: sfx_name.startswith('unused'),
modelled on the character sequence of the name. -/
def startsWithUnused (name : String) : Bool :=
  ("unused").data.isPrefixOf name.data

/-- Per-effect machine preparation, in program order: re-assert the music
pause flag, reset the sound channels, mark the current effect finished and
zero the priority cell, wait 15 ticks, then write maximum priority followed
by the target effect id. -/
def triggerSetup (M : Machine σ) (sfxId : Nat) (s : σ) : σ :=
  let s := M.write s ADDR_MUSIC_PAUSE 1
  let s := resetSoundM M s
  let s := M.write s ADDR_CUR_SFX_ID 0x80
  let s := M.write s ADDR_SFX_PRIORITY 0x00
  let s := tickN M 15 s
  let s := M.write s ADDR_SFX_PRIORITY 0xFF
  M.write s ADDR_CUR_SFX_ID sfxId

/-- Processing of one catalog entry: skip check, trigger setup, collection,
then either the no-audio failure or concatenate + trim + WAV write + encode.
encodeOk abstracts the external encoder invocation result. -/
def processEntry (M : Machine σ) (encodeOk : String → Bool) (skipUnused : Bool)
    (e : Nat × String × Nat) (s : σ) : Outcome × σ × List FileAction :=
  if skipUnused ∧ startsWithUnused e.2.1 = true then (.skipped, s, [])
  else
    let s1 := triggerSetup M e.1 s
    let col := collect M e.2.2 s1
    if col.1.isEmpty then (.noAudio, col.2, [])
    else
      let audio_data := trim_silence col.1.flatten 2 1000
      if encodeOk e.2.1 then
        (.ok (audio_data.length * 1000 / SAMPLE_RATE), col.2,
          [.wavWrite e.2.1, .encode e.2.1])
      else
        (.convertFailed, col.2, [.wavWrite e.2.1, .encode e.2.1])

/-- The batch loop over catalog entries, threading the machine state and
accumulating (extracted_count, failed names, final state, file actions). -/
def runLoop (M : Machine σ) (encodeOk : String → Bool) (skipUnused : Bool) :
    List (Nat × String × Nat) → σ → Nat × List String × σ × List FileAction
  | [], s => (0, [], s, [])
  | e :: rest, s =>
    let r := processEntry M encodeOk skipUnused e s
    let out := runLoop M encodeOk skipUnused rest r.2.1
    match r.1 with
    | .ok _ => (out.1 + 1, out.2.1, out.2.2.1, r.2.2 ++ out.2.2.2)
    | .skipped => (out.1, out.2.1, out.2.2.1, r.2.2 ++ out.2.2.2)
    | _ => (out.1, e.2.1 :: out.2.1, out.2.2.1, r.2.2 ++ out.2.2.2)

/-- The per-entry outcomes of the batch loop, along the same state chain. -/
def outcomes (M : Machine σ) (encodeOk : String → Bool) (skipUnused : Bool) :
    List (Nat × String × Nat) → σ → List Outcome
  | [], _ => []
  | e :: rest, s =>
    let r := processEntry M encodeOk skipUnused e s
    r.1 :: outcomes M encodeOk skipUnused rest r.2.1

/-- Startup sequence: 700 warm-up ticks, music pause flag, channel reset,
60 settling ticks. -/
def initMachine (M : Machine σ) (s0 : σ) : σ :=
  let s := tickN M 700 s0
  let s := M.write s ADDR_MUSIC_PAUSE 1
  let s := resetSoundM M s
  tickN M 60 s

/-- extract_sfx from the source: precondition checks (ROM present, ffmpeg
resolvable), initialization, the batch loop, and the aggregate boolean
saying extracted_count was positive. -/
def extract_sfx (romExists ffmpegOk : Bool) (M : Machine σ)
    (encodeOk : String → Bool) (skipUnused : Bool) (s0 : σ) : Bool :=
  if romExists = false then false
  else if ffmpegOk = false then false
  else
    decide (0 < (runLoop M encodeOk skipUnused SFX_LIST (initMachine M s0)).1)

/-- main from the source: sys.exit(0 if success else 1). -/
def main_exit_code (romExists ffmpegOk : Bool) (M : Machine σ)
    (encodeOk : String → Bool) (skipUnused : Bool) (s0 : σ) : Nat :=
  if extract_sfx romExists ffmpegOk M encodeOk skipUnused s0 then 0 else 1

/-- numpy clip of a scalar to [lo, hi]. -/
def npClip (x lo hi : Int) : Int := min (max x lo) hi

/-- The widening step of samples_to_wav on one sample:
(samples.astype(int16) * 256).clip(-32768, 32767). -/
def widenSample (s : Int) : Int := npClip (s * 256) (-32768) 32767

/-- samples_to_wav's sample conversion over a whole buffer (both channels of
every frame). -/
def samples_to_wav16 (samples : List Frame) : List Frame :=
  samples.map (fun f => (widenSample f.1, widenSample f.2))

/-- True mathematical per-frame peak absolute amplitude across channels, as
the specification describes it (no 8-bit wraparound). -/
def truePeak (f : Frame) : Int := max |f.1| |f.2|

/-- Index of the first frame whose (int8) peak exceeds the threshold. -/
def firstLoudIdx (threshold : Int) (samples : List Frame) : Option Nat :=
  samples.findIdx? (fun f => framePeak f > threshold)

/-- Index of the last frame whose (int8) peak exceeds the threshold. -/
def lastLoudIdx (threshold : Int) (samples : List Frame) : Option Nat :=
  (samples.reverse.findIdx? (fun f => framePeak f > threshold)).map
    (fun i => samples.length - 1 - i)

/-- Silence trimming exactly as the claim words it: first/last frame whose
true peak absolute amplitude exceeds the threshold, slice from 100 frames
before the first to SAMPLE_RATE/4 frames after the last (clamped), first
min_samples frames when nothing is loud or the slice is too short. -/
def trimSilenceSpecAbs (samples : List Frame) (threshold : Int)
    (min_samples : Nat) : List Frame :=
  match samples.findIdx? (fun f => truePeak f > threshold),
      (samples.reverse.findIdx? (fun f => truePeak f > threshold)).map
        (fun i => samples.length - 1 - i) with
  | some first, some last =>
    let start := first - 100
    let stop := min samples.length (last + SAMPLE_RATE / 4)
    let result := (samples.drop start).take (stop - start)
    if result.length < min_samples then samples.take min_samples else result
  | _, _ => samples.take min_samples

/-- Counterexample buffer for the peak-amplitude reading of trim_silence:
one frame whose left sample is -128 (true amplitude 128, but numpy int8
absolute value -128), followed by 1000 zero frames. -/
def cexBuf : List Frame := ((-128 : Int), (0 : Int)) :: List.replicate 1000 ((0 : Int), (0 : Int))

/-- A trivial machine whose audio output is always empty. -/
def unitMachine : Machine Unit where
  tick := fun _ => ()
  write := fun _ _ _ => ()
  read := fun _ _ => 0
  sample := fun _ => []

/-- One machine interaction, for observing what the runner does to the
machine. -/
inductive MachineOp
  | tickOp
  | writeOp (addr val : Nat)
deriving DecidableEq, Repr

/-- A machine whose state is the log of every interaction performed on it;
its audio output is always empty. -/
def logMachine : Machine (List MachineOp) where
  tick := fun s => s ++ [.tickOp]
  write := fun s a v => s ++ [.writeOp a v]
  read := fun _ _ => 0
  sample := fun _ => []

/-- Early-exit test of the collection loop at offset frame index: past frame
10, the current-effect cell (read after k+1 ticks) holds the finished
sentinel. -/
def exitCond (M : Machine σ) (s : σ) (frame k : Nat) : Bool :=
  decide (10 < frame + k) &&
    decide (M.read (tickN M (k + 1) s) ADDR_CUR_SFX_ID = 0x80)

/-- C7 counterexample: the catalog does not have 96 entries (it has 95; the
module docstring itself says 95 SFX). -/
theorem sfx_list_not_96_entries : ¬ (SFX_LIST.length = 96) := by decide

/-- C7 (amended): the effect catalog is a fixed constant with 95 entries,
and every entry's id (the value written to the trigger memory cell) is
unique within the catalog. -/
theorem sfx_list_95_entries_and_ids_unique :
    SFX_LIST.length = 95 ∧ (SFX_LIST.map (fun e => e.1)).Nodup := by decide

/-- Last-write-wins characterization of a sequence of store writes: reading
address a after applyWrites yields the value of the last write to a in the
list, or the old store value when the list never writes a. -/
theorem applyWrites_store (ws : List (Nat × Nat)) (m : Nat → Nat) (a : Nat) :
    applyWrites storeMachine m ws a =
      match ws.reverse.find? (fun p => a = p.1) with
      | some p => p.2
      | none => m a := by
  induction ws generalizing m with
  | nil => rfl
  | cons w ws ih =>
    show applyWrites storeMachine (writeStore m w.1 w.2) ws a = _
    rw [ih, List.reverse_cons, List.find?_append]
    cases hf : ws.reverse.find? (fun p => a = p.1) with
    | some p => rfl
    | none =>
      show writeStore m w.1 w.2 a = _
      unfold writeStore
      simp only [List.find?, Option.none_or]
      by_cases h : a = w.1
      · simp [h]
      · simp [h]

/-- C9: reset_sound_channels writes fixed constants to the sound registers
(envelope cells NR12, NR22, NR42 and the wave-channel DAC NR30 zeroed, the
restart bit 0x80 to NR14, NR24, NR44, sweep and duty cells NR10, NR11, NR21
zeroed, master volume NR50 = 0x77, panning NR51 = 0xFF), and applying it
twice leaves the store in the same state as applying it once (pointwise on
every address). -/
theorem reset_sound_channels_constants_idempotent :
    ∀ m : Nat → Nat,
      (reset_sound_channels m ADDR_NR12 = 0x00 ∧
       reset_sound_channels m ADDR_NR22 = 0x00 ∧
       reset_sound_channels m ADDR_NR42 = 0x00 ∧
       reset_sound_channels m ADDR_NR30 = 0x00 ∧
       reset_sound_channels m ADDR_NR14 = 0x80 ∧
       reset_sound_channels m ADDR_NR24 = 0x80 ∧
       reset_sound_channels m ADDR_NR44 = 0x80 ∧
       reset_sound_channels m ADDR_NR10 = 0x00 ∧
       reset_sound_channels m ADDR_NR11 = 0x00 ∧
       reset_sound_channels m ADDR_NR21 = 0x00 ∧
       reset_sound_channels m ADDR_NR50 = 0x77 ∧
       reset_sound_channels m ADDR_NR51 = 0xFF) ∧
      ∀ a, reset_sound_channels (reset_sound_channels m) a =
        reset_sound_channels m a := by
  intro m
  constructor
  · exact ⟨rfl, rfl, rfl, rfl, rfl, rfl, rfl, rfl, rfl, rfl, rfl, rfl⟩
  · intro a
    show applyWrites storeMachine (applyWrites storeMachine m resetSoundWrites)
      resetSoundWrites a = applyWrites storeMachine m resetSoundWrites a
    rw [applyWrites_store, applyWrites_store]
    cases hf : resetSoundWrites.reverse.find? (fun p => decide (a = p.1)) <;>
      simp [hf]

/-- C10: for every sample in the int8 source domain, the widening step of
samples_to_wav is exactly multiplication by 256 (the clip to the 16-bit
range never alters an in-domain value). -/
theorem widenSample_exact (s : Int) (h1 : -128 ≤ s) (h2 : s ≤ 127) :
    widenSample s = 256 * s := by
  unfold widenSample npClip
  rw [max_eq_left (by omega), min_eq_left (by omega)]
  omega

/-- Witness for widenSample_exact at the extreme inputs -128 and 127. -/
theorem widenSample_exact_witness :
    widenSample (-128) = 256 * (-128) ∧ widenSample 127 = 256 * 127 :=
  ⟨widenSample_exact (-128) (by decide) (by decide),
   widenSample_exact 127 (by decide) (by decide)⟩

theorem samplesUpTo_zero (M : Machine σ) (s : σ) : samplesUpTo M s 0 = [] := rfl

theorem samplesUpTo_succ (M : Machine σ) (s : σ) (n : Nat) :
    samplesUpTo M s (n + 1) =
      (if (M.sample (M.tick s)).length > 0 then [M.sample (M.tick s)] else []) ++
        samplesUpTo M (M.tick s) n := by
  unfold samplesUpTo
  rw [List.range_succ_eq_map, List.filterMap_cons, List.filterMap_map]
  by_cases h : (M.sample (M.tick s)).length > 0
  · have h0 : (M.sample (tickN M (0 + 1) s)).length > 0 := h
    rw [if_pos h, if_pos h0]
    rfl
  · have h0 : ¬ (M.sample (tickN M (0 + 1) s)).length > 0 := h
    rw [if_neg h, if_neg h0]
    rfl

theorem tailCapture_eq (M : Machine σ) :
    ∀ (n : Nat) (s : σ), tailCapture M n s = (samplesUpTo M s n, tickN M n s) := by
  intro n
  induction n with
  | zero => intro s; rfl
  | succ n ih =>
    intro s
    show ((if (M.sample (M.tick s)).length > 0 then [M.sample (M.tick s)] else []) ++
        (tailCapture M n (M.tick s)).1, (tailCapture M n (M.tick s)).2) = _
    rw [ih (M.tick s), samplesUpTo_succ]
    rfl

/-- The collection loop, characterized by the first qualifying early-exit
frame: if the search over the remaining fuel finds index k, the loop ticks
k+1 times plus a 15-tick tail; otherwise it ticks fuel times; in both cases
it keeps exactly the non-empty sampled chunks, in order. -/
theorem collectAux_eq (M : Machine σ) :
    ∀ (fuel frame : Nat) (s : σ),
      collectAux M fuel frame s =
        match (List.range fuel).find? (exitCond M s frame) with
        | some k => (samplesUpTo M s (k + 16), tickN M (k + 16) s)
        | none => (samplesUpTo M s fuel, tickN M fuel s) := by
  intro fuel
  induction fuel with
  | zero => intro frame s; rfl
  | succ fuel ih =>
    intro frame s
    rw [List.range_succ_eq_map, List.find?_cons]
    by_cases hc : 10 < frame ∧ M.read (M.tick s) ADDR_CUR_SFX_ID = 0x80
    · have hp0 : exitCond M s frame 0 = true := by
        unfold exitCond
        show (decide (10 < frame + 0) &&
          decide (M.read (M.tick s) ADDR_CUR_SFX_ID = 0x80)) = true
        simp only [Nat.add_zero, Bool.and_eq_true, decide_eq_true_eq]
        exact ⟨hc.1, hc.2⟩
      rw [hp0]
      show collectAux M (fuel + 1) frame s =
        (samplesUpTo M s (15 + 1), tickN M (15 + 1) s)
      rw [samplesUpTo_succ]
      simp only [collectAux]
      rw [if_pos hc, tailCapture_eq]
      rfl
    · have hp0 : exitCond M s frame 0 = false := by
        unfold exitCond
        show (decide (10 < frame + 0) &&
          decide (M.read (M.tick s) ADDR_CUR_SFX_ID = 0x80)) = false
        by_cases h1 : 10 < frame
        · have h2 : ¬ M.read (M.tick s) ADDR_CUR_SFX_ID = 0x80 :=
            fun h2 => hc ⟨h1, h2⟩
          simp [h2]
        · simp [h1]
      rw [hp0]
      have hfun : exitCond M s frame ∘ Nat.succ = exitCond M (M.tick s) (frame + 1) := by
        funext k
        show exitCond M s frame (Nat.succ k) = exitCond M (M.tick s) (frame + 1) k
        unfold exitCond
        rw [show frame + Nat.succ k = frame + 1 + k from by omega]
        rfl
      show collectAux M (fuel + 1) frame s =
        match (List.map Nat.succ (List.range fuel)).find? (exitCond M s frame) with
        | some k => (samplesUpTo M s (k + 16), tickN M (k + 16) s)
        | none => (samplesUpTo M s (fuel + 1), tickN M (fuel + 1) s)
      simp only [collectAux]
      rw [if_neg hc]
      rw [ih (frame + 1) (M.tick s), List.find?_map, hfun]
      cases hf : (List.range fuel).find? (exitCond M (M.tick s) (frame + 1)) with
      | some k =>
        show ((if (M.sample (M.tick s)).length > 0 then [M.sample (M.tick s)] else []) ++
            samplesUpTo M (M.tick s) (k + 16), tickN M (k + 16) (M.tick s)) =
          (samplesUpTo M s (Nat.succ k + 16), tickN M (Nat.succ k + 16) s)
        conv_rhs => rw [show Nat.succ k + 16 = (k + 16) + 1 from by omega, samplesUpTo_succ]
        rfl
      | none =>
        show ((if (M.sample (M.tick s)).length > 0 then [M.sample (M.tick s)] else []) ++
            samplesUpTo M (M.tick s) fuel, tickN M fuel (M.tick s)) =
          (samplesUpTo M s (fuel + 1), tickN M (fuel + 1) s)
        conv_rhs => rw [samplesUpTo_succ]
        rfl

/-- C1: the per-effect collection phase equals its specification: at most
est_frames + 30 loop iterations, one tick then one sampled frame per
iteration with non-empty chunks appended in order, and on the first frame
index from 11 on at which wCurSfxID reads the finished sentinel 0x80, a
15-tick tail capture followed by early exit. -/
theorem collect_eq_collectSpec (M : Machine σ) (est_frames : Nat) (s : σ) :
    collect M est_frames s = collectSpec M (est_frames + 30) s := by
  unfold collect collectSpec
  rw [collectAux_eq]
  have hfun : exitCond M s 0 = (fun f =>
      decide (10 < f) &&
        decide (M.read (tickN M (f + 1) s) ADDR_CUR_SFX_ID = 0x80)) := by
    funext k
    unfold exitCond
    rw [Nat.zero_add]
  rw [hfun]

theorem mem_loudIdx {threshold : Int} {b : List Frame} {i : Nat} :
    i ∈ loudIdx threshold b ↔ ∃ f, b[i]? = some f ∧ framePeak f > threshold := by
  unfold loudIdx
  constructor
  · intro h
    obtain ⟨pr, hpr, hfst⟩ := List.mem_map.mp h
    obtain ⟨hmem, hp⟩ := List.mem_filter.mp hpr
    have hget := List.mem_enum_iff_getElem?.mp hmem
    rw [List.getElem?_map] at hget
    obtain ⟨f, hf, hfp⟩ := Option.map_eq_some'.mp hget
    subst hfst
    exact ⟨f, hf, by rw [hfp]; exact decide_eq_true_eq.mp hp⟩
  · rintro ⟨f, hf, hloud⟩
    apply List.mem_map.mpr
    refine ⟨(i, framePeak f), List.mem_filter.mpr ⟨?_, ?_⟩, rfl⟩
    · apply List.mem_enum_iff_getElem?.mpr
      rw [List.getElem?_map, hf]
      rfl
    · exact decide_eq_true_eq.mpr hloud

theorem loudIdx_sorted (threshold : Int) (b : List Frame) :
    (loudIdx threshold b).Pairwise (· < ·) := by
  unfold loudIdx
  have h1 := (List.filter_sublist (p := fun p => decide (p.2 > threshold))
    (List.map framePeak b).enum).map Prod.fst
  rw [List.enum_map_fst] at h1
  exact List.Pairwise.sublist h1 (List.pairwise_lt_range _)

theorem sorted_head?_iff {l : List Nat} (h : l.Pairwise (· < ·)) {a : Nat} :
    l.head? = some a ↔ a ∈ l ∧ ∀ x ∈ l, a ≤ x := by
  constructor
  · intro ha
    obtain ⟨t, rfl⟩ := List.head?_eq_some_iff.mp ha
    refine ⟨List.mem_cons_self a t, ?_⟩
    intro x hx
    rcases List.mem_cons.mp hx with rfl | hx
    · exact Nat.le_refl x
    · exact Nat.le_of_lt ((List.pairwise_cons.mp h).1 x hx)
  · rintro ⟨hmem, hmin⟩
    cases l with
    | nil => cases hmem
    | cons c t =>
      rcases List.mem_cons.mp hmem with rfl | hat
      · rfl
      · have h1 := (List.pairwise_cons.mp h).1 a hat
        have h2 := hmin c (List.mem_cons_self c t)
        omega

theorem sorted_getLast?_iff {l : List Nat} (h : l.Pairwise (· < ·)) {a : Nat} :
    l.getLast? = some a ↔ a ∈ l ∧ ∀ x ∈ l, x ≤ a := by
  rw [List.getLast?_eq_head?_reverse]
  have hrev : l.reverse.Pairwise (fun x y => y < x) := List.pairwise_reverse.mpr h
  constructor
  · intro ha
    obtain ⟨t, ht⟩ := List.head?_eq_some_iff.mp ha
    rw [ht] at hrev
    have hmem : a ∈ l := by
      rw [← List.mem_reverse, ht]
      exact List.mem_cons_self a t
    refine ⟨hmem, ?_⟩
    intro x hx
    have hx' : x ∈ l.reverse := List.mem_reverse.mpr hx
    rw [ht] at hx'
    rcases List.mem_cons.mp hx' with rfl | hx'
    · exact Nat.le_refl x
    · exact Nat.le_of_lt ((List.pairwise_cons.mp hrev).1 x hx')
  · rintro ⟨hmem, hmax⟩
    cases hr : l.reverse with
    | nil =>
      exact absurd (List.mem_reverse.mpr hmem) (by rw [hr]; exact List.not_mem_nil a)
    | cons c t =>
      rw [hr] at hrev
      have hc : c ∈ l := by
        rw [← List.mem_reverse, hr]
        exact List.mem_cons_self c t
      have ha' : a ∈ c :: t := by
        rw [← hr]
        exact List.mem_reverse.mpr hmem
      rcases List.mem_cons.mp ha' with rfl | hat
      · rfl
      · have h1 := (List.pairwise_cons.mp hrev).1 a hat
        have h2 := hmax c hc
        omega

theorem sorted_eq_of_mem_iff :
    ∀ {l₁ l₂ : List Nat}, l₁.Pairwise (· < ·) → l₂.Pairwise (· < ·) →
      (∀ x, x ∈ l₁ ↔ x ∈ l₂) → l₁ = l₂ := by
  intro l₁
  induction l₁ with
  | nil =>
    intro l₂ _ _ hm
    cases l₂ with
    | nil => rfl
    | cons c t => exact absurd ((hm c).mpr (List.mem_cons_self c t)) (List.not_mem_nil c)
  | cons a t ih =>
    intro l₂ h₁ h₂ hm
    cases l₂ with
    | nil => exact absurd ((hm a).mp (List.mem_cons_self a t)) (List.not_mem_nil a)
    | cons c t₂ =>
      have hac : a = c := by
        rcases List.mem_cons.mp ((hm a).mp (List.mem_cons_self a t)) with h | h
        · exact h
        · rcases List.mem_cons.mp ((hm c).mpr (List.mem_cons_self c t₂)) with h' | h'
          · omega
          · have := (List.pairwise_cons.mp h₂).1 a h
            have := (List.pairwise_cons.mp h₁).1 c h'
            omega
      subst hac
      have htails : ∀ x, x ∈ t ↔ x ∈ t₂ := by
        intro x
        constructor
        · intro hx
          have hlt := (List.pairwise_cons.mp h₁).1 x hx
          rcases List.mem_cons.mp ((hm x).mp (List.mem_cons.mpr (Or.inr hx))) with rfl | h
          · omega
          · exact h
        · intro hx
          have hlt := (List.pairwise_cons.mp h₂).1 x hx
          rcases List.mem_cons.mp ((hm x).mpr (List.mem_cons.mpr (Or.inr hx))) with rfl | h
          · omega
          · exact h
      rw [ih (List.pairwise_cons.mp h₁).2 (List.pairwise_cons.mp h₂).2 htails]

theorem firstLoudIdx_eq_head? (threshold : Int) (b : List Frame) :
    firstLoudIdx threshold b = (loudIdx threshold b).head? := by
  unfold firstLoudIdx
  cases hh : (loudIdx threshold b).head? with
  | none =>
    have hnil := List.head?_eq_none_iff.mp hh
    apply List.findIdx?_eq_none_iff.mpr
    intro f hf
    obtain ⟨i, hi⟩ := List.mem_iff_getElem?.mp hf
    by_contra hcon
    have hloud : framePeak f > threshold :=
      decide_eq_true_eq.mp ((Bool.not_eq_false _).mp hcon)
    have : i ∈ loudIdx threshold b := mem_loudIdx.mpr ⟨f, hi, hloud⟩
    rw [hnil] at this
    exact List.not_mem_nil i this
  | some a =>
    have hs := loudIdx_sorted threshold b
    obtain ⟨hmem, hmin⟩ := (sorted_head?_iff hs).mp hh
    obtain ⟨f, hf, hloud⟩ := mem_loudIdx.mp hmem
    obtain ⟨ha, hba⟩ := List.getElem?_eq_some_iff.mp hf
    apply List.findIdx?_eq_some_iff_getElem.mpr
    refine ⟨ha, ?_, ?_⟩
    · rw [hba]
      exact decide_eq_true_eq.mpr hloud
    · intro j hj hp
      have hjl : j ∈ loudIdx threshold b := by
        apply mem_loudIdx.mpr
        refine ⟨b[j], ?_, ?_⟩
        · exact List.getElem?_eq_some_iff.mpr ⟨by omega, rfl⟩
        · exact decide_eq_true_eq.mp hp
      have := hmin j hjl
      omega

theorem lastLoudIdx_eq_getLast? (threshold : Int) (b : List Frame) :
    lastLoudIdx threshold b = (loudIdx threshold b).getLast? := by
  unfold lastLoudIdx
  cases hl : (loudIdx threshold b).getLast? with
  | none =>
    have hnil := List.getLast?_eq_none_iff.mp hl
    have hrev : b.reverse.findIdx? (fun f => decide (framePeak f > threshold)) = none := by
      apply List.findIdx?_eq_none_iff.mpr
      intro f hf
      obtain ⟨i, hi⟩ := List.mem_iff_getElem?.mp (List.mem_reverse.mp hf)
      by_contra hcon
      have hloud : framePeak f > threshold :=
        decide_eq_true_eq.mp (Bool.not_eq_false _ |>.mp hcon)
      have : i ∈ loudIdx threshold b := mem_loudIdx.mpr ⟨f, hi, hloud⟩
      rw [hnil] at this
      exact List.not_mem_nil i this
    rw [hrev]
    rfl
  | some a =>
    have hs := loudIdx_sorted threshold b
    obtain ⟨hmem, hmax⟩ := (sorted_getLast?_iff hs).mp hl
    obtain ⟨f, hf, hloud⟩ := mem_loudIdx.mp hmem
    obtain ⟨ha, hba⟩ := List.getElem?_eq_some_iff.mp hf
    have hrev : b.reverse.findIdx? (fun f => decide (framePeak f > threshold)) =
        some (b.length - 1 - a) := by
      apply List.findIdx?_eq_some_iff_getElem.mpr
      have hlen : b.length - 1 - a < b.reverse.length := by
        rw [List.length_reverse]
        omega
      refine ⟨hlen, ?_, ?_⟩
      · rw [List.getElem_reverse]
        simp only [show b.length - 1 - (b.length - 1 - a) = a from by omega]
        rw [hba]
        exact decide_eq_true_eq.mpr hloud
      · intro j hj hp
        rw [List.getElem_reverse] at hp
        have hjb : b.length - 1 - j < b.length := by
          rw [List.length_reverse] at hlen
          omega
        have hjl : b.length - 1 - j ∈ loudIdx threshold b := by
          apply mem_loudIdx.mpr
          refine ⟨b[b.length - 1 - j], ?_, decide_eq_true_eq.mp hp⟩
          exact List.getElem?_eq_some_iff.mpr ⟨hjb, rfl⟩
        have := hmax _ hjl
        omega
    rw [hrev]
    simp only [Option.map_some']
    congr 1
    omega

theorem mem_loudIdx_lt {threshold : Int} {b : List Frame} {i : Nat}
    (h : i ∈ loudIdx threshold b) : i < b.length := by
  obtain ⟨f, hf, _⟩ := mem_loudIdx.mp h
  exact (List.getElem?_eq_some_iff.mp hf).1

theorem slice_length {b : List Frame} {s e : Nat} (h1 : s ≤ e) (h2 : e ≤ b.length) :
    (slice b s e).length = e - s := by
  unfold slice
  rw [List.length_take, List.length_drop]
  omega

theorem slice_getElem? {b : List Frame} {s e i : Nat} (h : i < e - s) :
    (slice b s e)[i]? = b[s + i]? := by
  unfold slice
  rw [List.getElem?_take, if_pos h, List.getElem?_drop]

theorem slice_zero_length (b : List Frame) : slice b 0 b.length = b := by
  unfold slice
  rw [List.drop_zero, Nat.sub_zero, List.take_length]

theorem loudIdx_slice {threshold : Int} {b : List Frame} {s e : Nat}
    (hse : s ≤ e) (he : e ≤ b.length)
    (hall : ∀ j ∈ loudIdx threshold b, s ≤ j ∧ j < e) :
    loudIdx threshold (slice b s e) = (loudIdx threshold b).map (fun j => j - s) := by
  apply sorted_eq_of_mem_iff (loudIdx_sorted _ _)
  · apply List.pairwise_map.mpr
    apply (loudIdx_sorted threshold b).imp_of_mem
    intro a c ha hc hac
    have := (hall a ha).1
    omega
  · intro x
    constructor
    · intro hx
      obtain ⟨f, hf, hl⟩ := mem_loudIdx.mp hx
      have hxlen : x < (slice b s e).length := (List.getElem?_eq_some_iff.mp hf).1
      rw [slice_length hse he] at hxlen
      rw [slice_getElem? hxlen] at hf
      apply List.mem_map.mpr
      exact ⟨s + x, mem_loudIdx.mpr ⟨f, hf, hl⟩, by omega⟩
    · intro hx
      obtain ⟨j, hj, rfl⟩ := List.mem_map.mp hx
      obtain ⟨f, hf, hl⟩ := mem_loudIdx.mp hj
      obtain ⟨hs', he'⟩ := hall j hj
      apply mem_loudIdx.mpr
      refine ⟨f, ?_, hl⟩
      rw [slice_getElem? (show j - s < e - s from by omega),
        show s + (j - s) = j from by omega]
      exact hf

theorem mem_loudIdx_take {threshold : Int} {b : List Frame} {n i : Nat} :
    i ∈ loudIdx threshold (b.take n) ↔ i < n ∧ i ∈ loudIdx threshold b := by
  constructor
  · intro h
    obtain ⟨f, hf, hl⟩ := mem_loudIdx.mp h
    rw [List.getElem?_take] at hf
    by_cases hin : i < n
    · rw [if_pos hin] at hf
      exact ⟨hin, mem_loudIdx.mpr ⟨f, hf, hl⟩⟩
    · rw [if_neg hin] at hf
      simp at hf
  · rintro ⟨hin, h⟩
    obtain ⟨f, hf, hl⟩ := mem_loudIdx.mp h
    apply mem_loudIdx.mpr
    refine ⟨f, ?_, hl⟩
    rw [List.getElem?_take, if_pos hin]
    exact hf

theorem trim_silence_eq_take {b : List Frame} {threshold : Int} {ms : Nat}
    (h : loudIdx threshold b = []) :
    trim_silence b threshold ms = b.take ms := by
  simp only [trim_silence]
  rw [h]
  rfl

theorem trim_silence_eq_loud {b : List Frame} {threshold : Int} {ms : Nat}
    {f l : Nat} (hf : (loudIdx threshold b).head? = some f)
    (hl : (loudIdx threshold b).getLast? = some l) :
    trim_silence b threshold ms =
      (if (slice b (f - 100) (min b.length (l + SAMPLE_RATE / 4))).length < ms
       then b.take ms
       else slice b (f - 100) (min b.length (l + SAMPLE_RATE / 4))) := by
  simp only [trim_silence]
  rw [hf, hl]

/-- On a buffer no longer than the minimum length, trim_silence always
returns the min_samples-truncated buffer (for the fixed call parameters). -/
theorem trim_silence_short {p : List Frame} (hp : p.length ≤ 1000) :
    trim_silence p 2 1000 = p.take 1000 := by
  rcases hh : (loudIdx 2 p).head? with _ | f
  · exact trim_silence_eq_take (List.head?_eq_none_iff.mp hh)
  · rcases hl : (loudIdx 2 p).getLast? with _ | l
    · have := List.getLast?_eq_none_iff.mp hl
      rw [this] at hh
      simp at hh
    · rw [trim_silence_eq_loud hh hl]
      have hfm : f ∈ loudIdx 2 p := List.mem_of_mem_head? (by simp [hh])
      have hfl : f < p.length := mem_loudIdx_lt hfm
      have hll : l < p.length := by
        have hmem : l ∈ loudIdx 2 p := by
          rw [List.getLast?_eq_head?_reverse] at hl
          exact List.mem_reverse.mp (List.mem_of_mem_head? (by simp [hl]))
        exact mem_loudIdx_lt hmem
      have hsr : SAMPLE_RATE / 4 = 11025 := rfl
      have hmin : min p.length (l + SAMPLE_RATE / 4) = p.length := by
        rw [hsr]
        omega
      rw [hmin]
      have hslen : (slice p (f - 100) p.length).length = p.length - (f - 100) :=
        slice_length (by omega) (Nat.le_refl _)
      by_cases hshort : (slice p (f - 100) p.length).length < 1000
      · rw [if_pos hshort]
      · rw [if_neg hshort]
        have hs0 : f - 100 = 0 := by omega
        have hlen0 : p.length = 1000 := by omega
        rw [hs0]
        conv_lhs => rw [show p.length = p.length from rfl]
        rw [slice_zero_length]
        rw [← hlen0, List.take_length]

/-- C4: trim_silence is idempotent at the fixed call parameters (threshold
2, minimum length 1000): re-trimming an already-trimmed buffer returns the
same buffer. -/
theorem trim_silence_idem (b : List Frame) :
    trim_silence (trim_silence b 2 1000) 2 1000 = trim_silence b 2 1000 := by
  rcases hh : (loudIdx 2 b).head? with _ | f
  · rw [trim_silence_eq_take (List.head?_eq_none_iff.mp hh)]
    rw [trim_silence_short (by rw [List.length_take]; omega)]
    rw [List.take_take, min_self]
  · rcases hl : (loudIdx 2 b).getLast? with _ | l
    · have := List.getLast?_eq_none_iff.mp hl
      rw [this] at hh
      simp at hh
    · have hfm : f ∈ loudIdx 2 b := List.mem_of_mem_head? (by simp [hh])
      have hlm : l ∈ loudIdx 2 b := by
        have hrev : (loudIdx 2 b).reverse.head? = some l := by
          rw [← List.getLast?_eq_head?_reverse]
          exact hl
        exact List.mem_reverse.mp (List.mem_of_mem_head? (by simp [hrev]))
      have hfl : f < b.length := mem_loudIdx_lt hfm
      have hll : l < b.length := mem_loudIdx_lt hlm
      obtain ⟨_, hmin⟩ := (sorted_head?_iff (loudIdx_sorted 2 b)).mp hh
      obtain ⟨_, hmax⟩ := (sorted_getLast?_iff (loudIdx_sorted 2 b)).mp hl
      have hfle : f ≤ l := hmin l hlm
      have hsr : SAMPLE_RATE / 4 = 11025 := rfl
      rw [trim_silence_eq_loud hh hl]
      have hse : f - 100 ≤ min b.length (l + SAMPLE_RATE / 4) := by
        rw [hsr]
        omega
      have heb : min b.length (l + SAMPLE_RATE / 4) ≤ b.length := by omega
      have hel : l < min b.length (l + SAMPLE_RATE / 4) := by
        rw [hsr]
        omega
      by_cases hshort :
          (slice b (f - 100) (min b.length (l + SAMPLE_RATE / 4))).length < 1000
      · rw [if_pos hshort]
        rw [trim_silence_short (by rw [List.length_take]; omega)]
        rw [List.take_take, min_self]
      · rw [if_neg hshort]
        have hall : ∀ j ∈ loudIdx 2 b,
            f - 100 ≤ j ∧ j < min b.length (l + SAMPLE_RATE / 4) := by
          intro j hj
          have h1 := hmin j hj
          have h2 := hmax j hj
          omega
        have hslice := loudIdx_slice hse heb hall
        have hrlen : (slice b (f - 100) (min b.length (l + SAMPLE_RATE / 4))).length =
            min b.length (l + SAMPLE_RATE / 4) - (f - 100) := slice_length hse heb
        have hh' : (loudIdx 2 (slice b (f - 100)
            (min b.length (l + SAMPLE_RATE / 4)))).head? = some (f - (f - 100)) := by
          rw [hslice, List.head?_map, hh]
          rfl
        have hl' : (loudIdx 2 (slice b (f - 100)
            (min b.length (l + SAMPLE_RATE / 4)))).getLast? = some (l - (f - 100)) := by
          rw [hslice, List.getLast?_map, hl]
          rfl
        rw [trim_silence_eq_loud hh' hl']
        have h1 : f - (f - 100) - 100 = 0 := by omega
        have h2 : min (slice b (f - 100) (min b.length (l + SAMPLE_RATE / 4))).length
            (l - (f - 100) + SAMPLE_RATE / 4) =
            (slice b (f - 100) (min b.length (l + SAMPLE_RATE / 4))).length := by
          rw [hrlen, hsr]
          omega
        rw [h1, h2, slice_zero_length]
        rw [if_neg hshort]

/-- C3 counterexample: on an input shorter than the minimum length (a single
silent frame) trim_silence returns fewer than 1000 frames, so its result is
not always at least min_samples long. -/
theorem trim_silence_short_input_below_min :
    (trim_silence [((0 : Int), (0 : Int))] 2 1000).length < 1000 := by decide

/-- C3 (amended): trim_silence returns a buffer of length at least
min(1000, input length); the minimum-length guarantee is clamped by the
input length, because the fallback is a take of the input. -/
theorem trim_silence_length_min (b : List Frame) :
    min 1000 b.length ≤ (trim_silence b 2 1000).length := by
  rcases hh : (loudIdx 2 b).head? with _ | f
  · rw [trim_silence_eq_take (List.head?_eq_none_iff.mp hh), List.length_take]
  · rcases hl : (loudIdx 2 b).getLast? with _ | l
    · have := List.getLast?_eq_none_iff.mp hl
      rw [this] at hh
      simp at hh
    · rw [trim_silence_eq_loud hh hl]
      by_cases hshort :
          (slice b (f - 100) (min b.length (l + SAMPLE_RATE / 4))).length < 1000
      · rw [if_pos hshort, List.length_take]
      · rw [if_neg hshort]
        omega

set_option maxRecDepth 100000 in
/-- C2 counterexample: on a buffer whose only non-zero sample is -128,
trim_silence disagrees with the claim's description (first/last frame whose
true peak absolute amplitude exceeds the threshold): numpy's int8 absolute
value maps -128 to -128, so the code treats that frame as silent and
truncates to 1000 frames, while the description keeps all 1001. -/
theorem trim_silence_ne_abs_spec :
    trim_silence cexBuf 2 1000 ≠ trimSilenceSpecAbs cexBuf 2 1000 := by decide

/-- C2 (amended): for every non-empty buffer, with the peak computed the way
the code computes it on int8 data (numpy wrapping absolute value, under
which -128 stays -128), trim_silence returns: the first min_samples frames
when no frame's peak exceeds the threshold; otherwise the slice from
first_loud - 100 (clamped at 0) to min(length, last_loud + SAMPLE_RATE/4),
falling back to the first min_samples frames when that slice is shorter
than min_samples. -/
theorem trim_silence_spec (b : List Frame) (_hb : b ≠ []) :
    (firstLoudIdx 2 b = none → trim_silence b 2 1000 = b.take 1000) ∧
    (∀ i j, firstLoudIdx 2 b = some i → lastLoudIdx 2 b = some j →
      trim_silence b 2 1000 =
        (if (slice b (i - 100) (min b.length (j + SAMPLE_RATE / 4))).length < 1000
         then b.take 1000
         else slice b (i - 100) (min b.length (j + SAMPLE_RATE / 4)))) := by
  constructor
  · intro hnone
    rw [firstLoudIdx_eq_head?] at hnone
    exact trim_silence_eq_take (List.head?_eq_none_iff.mp hnone)
  · intro i j hi hj
    rw [firstLoudIdx_eq_head?] at hi
    rw [lastLoudIdx_eq_getLast?] at hj
    exact trim_silence_eq_loud hi hj

/-- Witness for trim_silence_spec on the concrete buffer [(5,0),(0,0)],
whose first and last loud frame is index 0. -/
theorem trim_silence_spec_witness :
    trim_silence [((5 : Int), (0 : Int)), ((0 : Int), (0 : Int))] 2 1000 =
      (if (slice [((5 : Int), (0 : Int)), ((0 : Int), (0 : Int))] (0 - 100)
          (min (List.length [((5 : Int), (0 : Int)), ((0 : Int), (0 : Int))])
            (0 + SAMPLE_RATE / 4))).length < 1000
       then List.take 1000 [((5 : Int), (0 : Int)), ((0 : Int), (0 : Int))]
       else slice [((5 : Int), (0 : Int)), ((0 : Int), (0 : Int))] (0 - 100)
          (min (List.length [((5 : Int), (0 : Int)), ((0 : Int), (0 : Int))])
            (0 + SAMPLE_RATE / 4))) :=
  (trim_silence_spec [((5 : Int), (0 : Int)), ((0 : Int), (0 : Int))]
    (by decide)).2 0 0 (by decide) (by decide)

/-- C8: with skipUnused set and a name tagged unused, the entry is skipped
outright: outcome skipped, no file actions, machine state returned untouched
(for every machine, in particular the interaction-logging one), and the
batch loop over this entry behaves exactly as the loop over the remaining
entries (no success counted, no failure recorded). -/
theorem skip_unused_entry {σ : Type} (M : Machine σ) (encodeOk : String → Bool)
    (e : Nat × String × Nat) (rest : List (Nat × String × Nat)) (s : σ)
    (h : startsWithUnused e.2.1 = true) :
    processEntry M encodeOk true e s = (.skipped, s, []) ∧
    runLoop M encodeOk true (e :: rest) s = runLoop M encodeOk true rest s := by
  have hp : processEntry M encodeOk true e s = (.skipped, s, []) := by
    simp only [processEntry]
    rw [if_pos ⟨trivial, h⟩]
  refine ⟨hp, ?_⟩
  simp only [runLoop, hp]
  simp

/-- Witness for skip_unused_entry: the interaction-logging machine on entry
unused_05 records no machine operation and the loop result is unchanged. -/
theorem skip_unused_entry_witness :
    processEntry logMachine (fun _ => true) true (0x05, "unused_05", 30) [] =
      (Outcome.skipped, ([] : List MachineOp), ([] : List FileAction)) ∧
    runLoop logMachine (fun _ => true) true [(0x05, "unused_05", 30)] [] =
      runLoop logMachine (fun _ => true) true [] [] :=
  skip_unused_entry logMachine (fun _ => true) (0x05, "unused_05", 30) [] []
    (by decide)

/-- C5: when an entry is not skipped and its collection phase yields no
chunks, the entry's outcome is the no-audio failure, no WAV write and no
encoder invocation happen (empty file-action list), and the batch loop
records the entry's name as failed and continues with the remaining entries
from the post-collection machine state (no retry). -/
theorem no_audio_entry {σ : Type} (M : Machine σ) (encodeOk : String → Bool)
    (skipUnused : Bool) (e : Nat × String × Nat) (rest : List (Nat × String × Nat))
    (s : σ)
    (hskip : ¬ (skipUnused ∧ startsWithUnused e.2.1 = true))
    (hempty : (collect M e.2.2 (triggerSetup M e.1 s)).1 = []) :
    processEntry M encodeOk skipUnused e s =
      (.noAudio, (collect M e.2.2 (triggerSetup M e.1 s)).2, []) ∧
    runLoop M encodeOk skipUnused (e :: rest) s =
      ((runLoop M encodeOk skipUnused rest
          ((collect M e.2.2 (triggerSetup M e.1 s)).2)).1,
       e.2.1 :: (runLoop M encodeOk skipUnused rest
          ((collect M e.2.2 (triggerSetup M e.1 s)).2)).2.1,
       (runLoop M encodeOk skipUnused rest
          ((collect M e.2.2 (triggerSetup M e.1 s)).2)).2.2.1,
       (runLoop M encodeOk skipUnused rest
          ((collect M e.2.2 (triggerSetup M e.1 s)).2)).2.2.2) := by
  have h1 : processEntry M encodeOk skipUnused e s =
      (.noAudio, (collect M e.2.2 (triggerSetup M e.1 s)).2, []) := by
    simp only [processEntry]
    rw [if_neg hskip, if_pos (List.isEmpty_iff.mpr hempty)]
  refine ⟨h1, ?_⟩
  simp only [runLoop, h1]
  simp

/-- Witness for no_audio_entry: a machine with permanently empty audio
collects nothing for the cursor entry and the outcome is the no-audio
failure with no file actions. -/
theorem no_audio_entry_witness :
    processEntry unitMachine (fun _ => true) false (1, "cursor", 15) () =
      (Outcome.noAudio, (collect unitMachine 15 (triggerSetup unitMachine 1 ())).2,
        ([] : List FileAction)) :=
  (no_audio_entry unitMachine (fun _ => true) false (1, "cursor", 15) [] ()
    (by decide) (by decide)).1

theorem runLoop_count {σ : Type} (M : Machine σ) (encodeOk : String → Bool)
    (skipUnused : Bool) :
    ∀ (es : List (Nat × String × Nat)) (s : σ),
      (runLoop M encodeOk skipUnused es s).1 =
        (outcomes M encodeOk skipUnused es s).countP (fun o => o.isOk) := by
  intro es
  induction es with
  | nil => intro s; rfl
  | cons e rest ih =>
    intro s
    simp only [runLoop, outcomes]
    cases hp : (processEntry M encodeOk skipUnused e s).1 <;>
      simp [List.countP_cons, ih, Outcome.isOk]

/-- C6: extract_sfx returns true exactly when the preconditions passed and
at least one catalog entry's outcome is a success (encoded without error),
and main's exit code is 0 exactly when extract_sfx returned true and 1
exactly when it returned false. -/
theorem extract_sfx_iff {σ : Type} (M : Machine σ) (encodeOk : String → Bool)
    (skipUnused : Bool) (s0 : σ) (romExists ffmpegOk : Bool) :
    (extract_sfx romExists ffmpegOk M encodeOk skipUnused s0 = true ↔
      romExists = true ∧ ffmpegOk = true ∧
        0 < (outcomes M encodeOk skipUnused SFX_LIST (initMachine M s0)).countP
          (fun o => o.isOk)) ∧
    (main_exit_code romExists ffmpegOk M encodeOk skipUnused s0 = 0 ↔
      extract_sfx romExists ffmpegOk M encodeOk skipUnused s0 = true) ∧
    (main_exit_code romExists ffmpegOk M encodeOk skipUnused s0 = 1 ↔
      extract_sfx romExists ffmpegOk M encodeOk skipUnused s0 = false) := by
  refine ⟨?_, ?_, ?_⟩
  · unfold extract_sfx
    cases romExists
    · simp
    · cases ffmpegOk
      · simp
      · simp [runLoop_count]
  · unfold main_exit_code
    cases hx : extract_sfx romExists ffmpegOk M encodeOk skipUnused s0 <;> simp [hx]
  · unfold main_exit_code
    cases hx : extract_sfx romExists ffmpegOk M encodeOk skipUnused s0 <;> simp [hx]

example :
    (collect (⟨Nat.succ, fun t _ _ => t, fun t _ => if 12 ≤ t then 0x80 else 0,
      fun _ => [((3 : Int), (3 : Int))]⟩ : Machine Nat) 20 0).2 = 27 := by decide

example :
    (collect (⟨Nat.succ, fun t _ _ => t, fun t _ => if 12 ≤ t then 0x80 else 0,
      fun _ => [((3 : Int), (3 : Int))]⟩ : Machine Nat) 20 0).1.length = 27 := by
  decide

example :
    (collect (⟨Nat.succ, fun t _ _ => t, fun _ _ => 0,
      fun _ => [((3 : Int), (3 : Int))]⟩ : Machine Nat) 20 0).2 = 50 := by decide

end ExtractSfx
